import Mathlib

/-!
Verification development for the pynodex process supervisor
(src/pynodex/core.py, src/pynodex/daemon.py, src/pynodex/daemon_cli.py).

The registry is the JSON table `processes.json`, a top-level object mapping
process names to record dictionaries.  We embed it as an insertion-ordered
association list, matching the ordered-dict semantics of Python.  Operations
that touch the operating system (psutil calls, Popen, socket binds) are
embedded as functions over an explicit "OS behavior" argument that enumerates
the outcomes the Python code distinguishes by its `except` clauses.
-/

namespace Pynodex

/-! ## Data model -/

/-- A managed-process record, translated field by field from the dictionary
built by `_start_process_internal_daemon` (daemon.py 153-170) and
`start` (core.py 248-265).  `pid` is absent when the record was never
started or was cleared; `max_cpu_restart` is the float CPU threshold;
`max_memory_restart` is the human string such as "200MB". -/
structure ProcRecord where
  pid : Option Nat
  command : String
  cwd : Option String
  env : Option (List (String × String))
  status : String
  start_time : Nat
  port : Option Nat
  stdout_log : String
  stderr_log : String
  watch : Bool
  max_memory_restart : Option String
  max_cpu_restart : Option ℚ
  restart_delay_ms : Option Nat
  no_autorestart : Bool
  cron : Option String
  time_prefix_logs : Bool
deriving Repr, DecidableEq

/-- The registry: the ordered name-to-record table of `processes.json`. -/
abbrev Registry := List (String × ProcRecord)

/-- Dictionary lookup `processes.get(name)` / `processes[name]`. -/
def lookupProc : Registry → String → Option ProcRecord
  | [], _ => none
  | (k, v) :: rest, name => if k = name then some v else lookupProc rest name

/-- Dictionary deletion `del processes[name]`. -/
def removeProc (reg : Registry) (name : String) : Registry :=
  reg.filter (fun kv => kv.1 ≠ name)

/-- Dictionary assignment `processes[name] = info` (updates in place,
appends when the key is new, as for a Python dict). -/
def setProc : Registry → String → ProcRecord → Registry
  | [], name, v => [(name, v)]
  | (k, w) :: rest, name, v =>
    if k = name then (k, v) :: rest else (k, w) :: setProc rest name v

/-! ## Python string primitives -/

/-- ASCII whitespace as recognized by Python's `str.split` / `str.strip` /
`float` (space, tab, newline, carriage return, vertical tab, form feed). -/
def pyIsSpace (c : Char) : Bool :=
  decide (c.toNat = 32 ∨ c.toNat = 9 ∨ c.toNat = 10 ∨ c.toNat = 13 ∨
    c.toNat = 11 ∨ c.toNat = 12)

/-- Decimal digit test (Python's `\d` over ASCII input). -/
def isDigitChar (c : Char) : Bool :=
  decide (48 ≤ c.toNat ∧ c.toNat ≤ 57)

/-- Worker for `str.split()` with no argument: accumulates the current word
(in reverse) and breaks on any whitespace run, producing no empty words. -/
def pySplitAux : List Char → List Char → List (List Char)
  | [], acc => if acc = [] then [] else [acc.reverse]
  | c :: rest, acc =>
    if pyIsSpace c then
      if acc = [] then pySplitAux rest [] else acc.reverse :: pySplitAux rest []
    else pySplitAux rest (c :: acc)

/-- Python `s.split()`: split on whitespace runs, dropping empty pieces. -/
def pySplit (s : String) : List String :=
  (pySplitAux s.data []).map (fun cs => String.mk cs)

/-- Python `" ".join(parts)`. -/
def joinSpace (parts : List String) : String :=
  String.intercalate " " parts

/-- Python `s.strip()`-style whitespace stripping on both ends, as performed
by `float()` on its string argument. -/
def stripWs (cs : List Char) : List Char :=
  ((cs.dropWhile pyIsSpace).reverse.dropWhile pyIsSpace).reverse

/-- Value of a digit run (most significant first). -/
def digitsToNat (ds : List Char) : Nat :=
  ds.foldl (fun a c => 10 * a + (c.toNat - 48)) 0

/-- Value of the decimal literal `n.f` as a rational. -/
def decValue (n f : List Char) : ℚ :=
  (digitsToNat n : ℚ) + (digitsToNat f : ℚ) / (10 : ℚ) ^ f.length

/-- Optional leading sign of a float literal. -/
def signSplit : List Char → ℚ × List Char
  | [] => (1, [])
  | c :: r =>
    if c = '+' then (1, r) else if c = '-' then (-1, r) else (1, c :: r)

/-- Optional fraction part: a '.' consumes the following digit run (possibly
empty, as Python accepts "1."). -/
def fracSplit : List Char → List Char × List Char
  | [] => ([], [])
  | c :: r =>
    if c = '.' then (r.takeWhile isDigitChar, r.dropWhile isDigitChar)
    else ([], c :: r)

/-- Optional exponent part `e[±]digits`; when the digits are missing the
whole exponent is left unconsumed (making the overall parse fail). -/
def expSplit : List Char → Int × List Char
  | [] => (0, [])
  | c :: r =>
    if c = 'e' ∨ c = 'E' then
      let sr : Int × List Char :=
        match r with
        | [] => (1, [])
        | c2 :: rr =>
          if c2 = '+' then (1, rr)
          else if c2 = '-' then (-1, rr)
          else (1, c2 :: rr)
      let eds := sr.2.takeWhile isDigitChar
      if eds.isEmpty then (0, c :: r)
      else (sr.1 * (digitsToNat eds : Int), sr.2.dropWhile isDigitChar)
    else (0, c :: r)

/-- Model of CPython's `float(str)` on finite decimal literals: optional
surrounding whitespace, optional sign, digits with optional fraction and
optional exponent; at least one digit must appear in the mantissa and
nothing may be left over.  (The `inf`/`nan` words, underscore digit
separators, and non-ASCII digits accepted by CPython are outside the inputs
settled here and are not modelled.) -/
def pythonFloat (cs0 : List Char) : Option ℚ :=
  let cs := stripWs cs0
  let sr := signSplit cs
  let n := sr.2.takeWhile isDigitChar
  let fr := fracSplit (sr.2.dropWhile isDigitChar)
  if n.isEmpty ∧ fr.1.isEmpty then none
  else
    let er := expSplit fr.2
    if er.2.isEmpty then some (sr.1 * decValue n fr.1 * (10 : ℚ) ^ er.1)
    else none

/-- Python's `ab in s` substring test specialized to a two-character
needle. -/
def containsPair (a b : Char) : List Char → Bool
  | [] => false
  | [_] => false
  | c :: d :: rest =>
    if c = a ∧ d = b then true else containsPair a b (d :: rest)

/-- Python's `s.replace(ab, "")` specialized to a two-character needle:
left-to-right removal of non-overlapping occurrences. -/
def removePair (a b : Char) : List Char → List Char
  | [] => []
  | [c] => [c]
  | c :: d :: rest =>
    if c = a ∧ d = b then removePair a b rest
    else c :: removePair a b (d :: rest)

/-! ## The stop path -/

/-- One attempted signal delivery of the stop sequence, together with the
bounded wait (in seconds) that follows it in the source. -/
inductive SigAction
  | terminate (pid : Nat) (waitSeconds : Nat)
  | kill (pid : Nat) (waitSeconds : Nat)
deriving Repr, DecidableEq

/-- The OS outcomes `_stop_process_internal_daemon` (daemon.py 179-219)
distinguishes through its `except` clauses:
graceful exit within the 5-second wait; `psutil.NoSuchProcess`;
`psutil.AccessDenied`; timeout escalation with the kill succeeding within the
2-second wait; kill finding the process already gone; kill itself failing
(any exception from `proc.kill()` / the second `proc.wait`, caught by the
generic handler at daemon.py 207-209); and any other exception during the
stop (daemon.py 210-212). -/
inductive StopOsBehavior
  | exitsOnTerminate
  | noSuchProcess
  | accessDenied
  | killExits
  | killNoSuchProcess
  | killError
  | otherError
deriving Repr, DecidableEq

/-- Result of one stop operation: reported success, the registry it saved,
and the signals it attempted. -/
structure StopOutcome where
  success : Bool
  registry : Registry
  signals : List SigAction
deriving Repr, DecidableEq

/-- Translation of `_stop_process_internal_daemon` (daemon.py 179-219).
An unknown name is an error; a record without a pid is removed without any
signal; otherwise the behavior of terminate / wait(5) / kill / wait(2)
decides the result.  The `return` statements inside the error handlers
(daemon.py 198, 209, 212) skip the `del`, so those paths keep the record. -/
def stopProcessInternalDaemon (reg : Registry) (name : String)
    (beh : StopOsBehavior) : StopOutcome :=
  match lookupProc reg name with
  | none => ⟨false, reg, []⟩
  | some info =>
    match info.pid with
    | none => ⟨true, removeProc reg name, []⟩
    | some pid =>
      match beh with
      | .exitsOnTerminate => ⟨true, removeProc reg name, [.terminate pid 5]⟩
      | .noSuchProcess => ⟨true, removeProc reg name, [.terminate pid 5]⟩
      | .accessDenied => ⟨false, reg, [.terminate pid 5]⟩
      | .killExits => ⟨true, removeProc reg name, [.terminate pid 5, .kill pid 2]⟩
      | .killNoSuchProcess =>
          ⟨true, removeProc reg name, [.terminate pid 5, .kill pid 2]⟩
      | .killError => ⟨false, reg, [.terminate pid 5, .kill pid 2]⟩
      | .otherError => ⟨false, reg, [.terminate pid 5]⟩

/-- A generic running record used as concrete test data. -/
def sampleRecord : ProcRecord :=
  { pid := some 10, command := "python app.py", cwd := none, env := none,
    status := "running", start_time := 50, port := none,
    stdout_log := "<log-dir>/web_stdout.log",
    stderr_log := "<log-dir>/web_stderr.log",
    watch := false, max_memory_restart := none, max_cpu_restart := none,
    restart_delay_ms := none, no_autorestart := false, cron := none,
    time_prefix_logs := false }

/-! ## The start path -/

/-- The sentinel stored for console-mode records. -/
def N_A_CONSOLE : String := "N/A (console)"

/-- Abstract path of the default log directory. -/
def LOG_DIR : String := "<log-dir>"

/-- Default stdout capture path `<log-dir>/<name>_stdout.log`. -/
def defaultStdoutLog (name : String) : String :=
  LOG_DIR ++ "/" ++ name ++ "_stdout.log"

/-- Default stderr capture path `<log-dir>/<name>_stderr.log`. -/
def defaultStderrLog (name : String) : String :=
  LOG_DIR ++ "/" ++ name ++ "_stderr.log"

/-- The argument list of `_start_process_internal_daemon` (daemon.py 87). -/
structure StartArgs where
  name : String
  command : List String
  cwd : Option String
  env : Option (List (String × String))
  port : Option Nat
  log : Option String
  no_daemon : Bool
  watch : Bool
  max_memory_restart : Option String
  max_cpu_restart : Option ℚ
  restart_delay : Option Nat
  no_autorestart : Bool
  cron : Option String
  time_prefix_logs : Bool
deriving Repr, DecidableEq

/-- Result of one daemon start attempt: whether a `ValueError` propagated
out of the function (the bind pre-check, daemon.py 100-101, is outside the
`try`), the reported success, the saved registry, and the pid of the child
spawned, if any. -/
structure StartOutcome where
  raised : Bool
  success : Bool
  registry : Registry
  spawned : Option Nat
deriving Repr, DecidableEq

/-- Python truthiness of the `port` argument (`if port:`): absent and zero
are both falsy. -/
def portTruthy : Option Nat → Bool
  | some p => p != 0
  | none => false

/-- Translation of `_start_process_internal_daemon` (daemon.py 87-176).
`bindOk` is the outcome of the advisory `socket.bind` on the requested port;
`spawn` is `some pid` when `subprocess.Popen` succeeds and `none` when it
raises.  Note the function performs no name-collision check and no port
range or registry-uniqueness check: `processes[name] = {...}` (daemon.py
153) overwrites any existing record.  In console mode (`no_daemon`) the
daemon substitutes the default capture paths (daemon.py 112-120); a custom
`log` path captures both streams into the same file (daemon.py 122-128). -/
def startProcessInternalDaemon (reg : Registry) (a : StartArgs)
    (bindOk : Bool) (spawn : Option Nat) (now : Nat) : StartOutcome :=
  let full_command := joinSpace a.command
  if portTruthy a.port && !bindOk then
    ⟨true, false, reg, none⟩
  else
    let logPaths : String × String :=
      if a.no_daemon then (defaultStdoutLog a.name, defaultStderrLog a.name)
      else
        match a.log with
        | some lp => (lp, lp)
        | none => (defaultStdoutLog a.name, defaultStderrLog a.name)
    match spawn with
    | none => ⟨false, false, reg, none⟩
    | some pid =>
      let newRecord : ProcRecord :=
        { pid := some pid, command := full_command, cwd := a.cwd, env := a.env,
          status := "running", start_time := now, port := a.port,
          stdout_log := logPaths.1, stderr_log := logPaths.2,
          watch := a.watch, max_memory_restart := a.max_memory_restart,
          max_cpu_restart := a.max_cpu_restart,
          restart_delay_ms := a.restart_delay,
          no_autorestart := a.no_autorestart, cron := a.cron,
          time_prefix_logs := a.time_prefix_logs }
      ⟨false, true, setProc reg a.name newRecord, some pid⟩

/-- The rejection classes of the pure pre-checks that the unsupervised CLI
`start` performs before spawning (core.py 169-184): name collision, empty
command, port out of [1024, 65535], duplicate port among records. -/
inductive CliStartReject
  | nameCollision
  | emptyCommand
  | portOutOfRange
  | portDuplicate (other : String)
deriving Repr, DecidableEq

/-- Translation of the pre-checks of `start` (core.py 167-195) up to the
advisory bind: collision check, empty-command check, the port range check
`1024 <= port <= 65535`, and the scan of the registry for another record
holding the same port. -/
def cliStartPrechecks (reg : Registry) (name : String)
    (command : List String) (port : Option Nat) : Option CliStartReject :=
  if (lookupProc reg name).isSome then some .nameCollision
  else if joinSpace command = "" then some .emptyCommand
  else
    match port with
    | some p =>
      if p ≠ 0 then
        if ¬ (1024 ≤ p ∧ p ≤ 65535) then some .portOutOfRange
        else
          match reg.find? (fun kv => kv.2.port = some p) with
          | some kv => some (.portDuplicate kv.1)
          | none => none
      else none
    | none => none

/-- Start arguments replaying `sampleRecord`-like data under a colliding
name. -/
def argsC2 : StartArgs :=
  { name := "web", command := ["sleep", "30"], cwd := none, env := none,
    port := none, log := none, no_daemon := false, watch := false,
    max_memory_restart := none, max_cpu_restart := none,
    restart_delay := none, no_autorestart := false, cron := none,
    time_prefix_logs := false }

/-- Start arguments requesting the port already recorded for process `a`. -/
def argsC3 : StartArgs :=
  { name := "b", command := ["server"], cwd := none, env := none,
    port := some 8123, log := none, no_daemon := false, watch := false,
    max_memory_restart := none, max_cpu_restart := none,
    restart_delay := none, no_autorestart := false, cron := none,
    time_prefix_logs := false }

/-! ## Registry store: Load -/

/-- Classification of the on-disk registry file content as it flows through
`load_processes` (core.py 24-33) / `load_processes_daemon` (daemon.py 53-61).
The UTF-8 decode and the JSON parse themselves are library calls; their
possible outcomes are the input here: the file is missing, its bytes do not
decode as UTF-8 (e.g. the single byte 0xFF), they decode but fail to parse
as JSON, or they parse to a document whose top level is an object (giving a
table) or is not an object (e.g. the JSON array `[1, 2]`). -/
inductive RegistryFile
  | missing
  | notUtf8
  | notJson
  | jsonNonObject
  | jsonObject (t : Registry)
deriving Repr, DecidableEq

/-- What `load_processes` hands back to its caller. -/
inductive LoadResult
  | table (t : Registry)
  | nonTable
  | raisedUnicodeError
deriving Repr, DecidableEq

/-- Translation of `load_processes` (core.py 24-33; daemon.py 53-61 is
identical up to logging).  The only handler is
`except json.JSONDecodeError`; a `UnicodeDecodeError` from reading the file
in text mode is not a `json.JSONDecodeError`, so it propagates.  A JSON
document that is not an object is returned as parsed, unvalidated. -/
def load_processes : RegistryFile → LoadResult
  | .missing => .table []
  | .notUtf8 => .raisedUnicodeError
  | .notJson => .table []
  | .jsonNonObject => .nonTable
  | .jsonObject t => .table t

/-! ## Registry store: Save -/

/-- Path of the registry file. -/
def PROCESS_DB_FILE : String := "<app-dir>/processes.json"

/-- Path of the application directory holding the registry file. -/
def APP_DIR : String := "<app-dir>"

/-- Filesystem effects a save routine could perform. -/
inductive FsOp
  | makedirs (path : String)
  | openWrite (path : String)
  | writeJsonTo (path : String) (t : Registry)
  | rename (src : String) (dst : String)
  | flush (path : String)
deriving Repr, DecidableEq

/-- Effect trace of `save_processes` (core.py 35-39): create the parent
directory, open the registry file itself in truncating write mode, dump the
table into it.  No temporary file, no rename, no explicit flush. -/
def save_processes (t : Registry) : List FsOp :=
  [.makedirs APP_DIR, .openWrite PROCESS_DB_FILE,
    .writeJsonTo PROCESS_DB_FILE t]

/-- Effect trace of `save_processes_daemon` (daemon.py 63-66): identical to
the unsupervised writer. -/
def save_processes_daemon (t : Registry) : List FsOp :=
  [.makedirs APP_DIR, .openWrite PROCESS_DB_FILE,
    .writeJsonTo PROCESS_DB_FILE t]

/-- Rename test on one effect. -/
def isRenameOp : FsOp → Bool
  | .rename _ _ => true
  | _ => false

/-- Direct-truncating-open test on one effect. -/
def isDirectOpen : FsOp → Bool
  | .openWrite p => p == PROCESS_DB_FILE
  | _ => false

/-- Modelled from the spec: "writing the document to a temporary sibling
file and then renaming it over the registry file".  A trace is an atomic
replace when it renames something onto the registry file and never opens
the registry file for direct writing. -/
def atomicRenameSave (ops : List FsOp) : Bool :=
  (ops.any fun op =>
    match op with
    | .rename _ dst => dst == PROCESS_DB_FILE
    | _ => false) && !(ops.any isDirectOpen)

/-! ## Memory-limit parsing and the monitor sweep -/

/-- Outcome of the memory-limit interpretation inside the sweep
(daemon.py 256-264): no limit recognized, a limit in MiB, or a `ValueError`
raised by `float()` on the residue after deleting the unit substring. -/
inductive MemLimitOutcome
  | noLimit
  | limitMB (m : ℚ)
  | valueError
deriving Repr, DecidableEq

/-- Translation of the limit interpretation of `_monitor_running_processes`
(daemon.py 256-264) over the already-lowercased character list: test
`'mb' in s` / `'gb' in s` by substring containment, delete every occurrence
of the unit substring, and call `float()` on what is left; a GB value is
multiplied by 1024. -/
def parseMemLimitCore (cs : List Char) : MemLimitOutcome :=
  if containsPair 'm' 'b' cs then
    match pythonFloat (removePair 'm' 'b' cs) with
    | some x => .limitMB x
    | none => .valueError
  else if containsPair 'g' 'b' cs then
    match pythonFloat (removePair 'g' 'b' cs) with
    | some x => .limitMB (x * 1024)
    | none => .valueError
  else .noLimit

/-- The limit interpretation applied to the stored string, lowercased first
as the source does with `.lower()`. -/
def parseMemLimit (s : String) : MemLimitOutcome :=
  parseMemLimitCore (s.data.map Char.toLower)

/-- Fraction part of the spec's grammar: a '.' must be followed by at least
one digit (`(?:\.\d+)?`). -/
def parseFrac : List Char → Option (List Char × List Char)
  | [] => some ([], [])
  | c :: r =>
    if c = '.' then
      if (r.takeWhile isDigitChar).isEmpty then none
      else some (r.takeWhile isDigitChar, r.dropWhile isDigitChar)
    else some ([], c :: r)

/-- Unit part of the spec's grammar: `MB` or `GB` (already lowercased). -/
def parseUnit : List Char → Option (Bool × List Char)
  | c :: d :: r =>
    if c = 'm' ∧ d = 'b' then some (false, r)
    else if c = 'g' ∧ d = 'b' then some (true, r)
    else none
  | _ => none

/-- Modelled from the spec: the memory-limit grammar
`^\s*(\d+(?:\.\d+)?)\s*(MB|GB)\s*$`, case-insensitive, over the lowercased
character list; an MB value means n MiB and a GB value means n*1024 MiB. -/
def memLimitGrammarCore (cs : List Char) : Option ℚ :=
  let r1 := cs.dropWhile pyIsSpace
  let n := r1.takeWhile isDigitChar
  if n.isEmpty then none
  else
    match parseFrac (r1.dropWhile isDigitChar) with
    | none => none
    | some (f, r2) =>
      match parseUnit (r2.dropWhile pyIsSpace) with
      | none => none
      | some (isGB, r3) =>
        if r3.all pyIsSpace then
          some ((if isGB then 1024 else 1) * decValue n f)
        else none

/-- Modelled from the spec: the memory-limit grammar applied to the stored
string (case-insensitively, via lowercasing). -/
def memLimitGrammar (s : String) : Option ℚ :=
  memLimitGrammarCore (s.data.map Char.toLower)

/-- Result of probing one pid, as the monitor sees it:
`psutil.NoSuchProcess`, `psutil.AccessDenied`, or a live snapshot with a
status string, the instantaneous CPU percent, and the resident set in
MiB. -/
inductive ProbeResult
  | notFound
  | accessDenied
  | live (status : String) (cpu : ℚ) (rss : ℚ)
deriving Repr, DecidableEq

/-- Translation of `get_process_info_daemon` (daemon.py 68-85): a missing
process yields `None`; an access-denied process yields a snapshot with the
status literal "Access Denied" and zeroed metrics; a live process yields its
snapshot.  (The fields not consumed by the sweep are omitted.) -/
def get_process_info_daemon : ProbeResult → Option (String × ℚ × ℚ)
  | .notFound => none
  | .accessDenied => some ("Access Denied", 0, 0)
  | .live st cpu rss => some (st, cpu, rss)

/-- Python truthiness-guarded CPU-ceiling test
`if info.get('max_cpu_restart') and cpu > limit` (daemon.py 251): an absent
or zero threshold never trips. -/
def cpuLimitTrips (lim : Option ℚ) (cpu : ℚ) : Bool :=
  match lim with
  | none => false
  | some l => decide (l ≠ 0) && decide (cpu > l)

/-- What one per-record pass of the sweep does beyond mutating the record:
nothing, invoke the restart helper, or raise (the uncaught `ValueError`
from the memory-limit parse aborts the sweep). -/
inductive SweepAction
  | noAction
  | restartInvoked
  | raisedError
deriving Repr, DecidableEq

/-- Record state and action after one per-record pass of the sweep. -/
structure SweepStep where
  record : ProcRecord
  action : SweepAction
deriving Repr, DecidableEq

/-- Translation of the per-record body of `_monitor_running_processes`
(daemon.py 241-305).  With a pid and a probe snapshot: the status field is
overwritten with the probe status, then the CPU ceiling and the memory
ceiling are checked in that order; without a snapshot the record is marked
dead and the restart helper is invoked unless `no_autorestart`; without a
pid, a record still marked running is treated as crashed.  The sweep itself
never deletes the record from the registry. -/
def monitorStep (info : ProcRecord) (probe : ProbeResult) : SweepStep :=
  match info.pid with
  | some _ =>
    match get_process_info_daemon probe with
    | some (st, cpu, rss) =>
      let info2 := { info with status := st }
      if cpuLimitTrips info2.max_cpu_restart cpu then
        ⟨info2, .restartInvoked⟩
      else
        match info2.max_memory_restart with
        | some s =>
          if s = "" then ⟨info2, .noAction⟩
          else
            match parseMemLimit s with
            | .valueError => ⟨info2, .raisedError⟩
            | .limitMB m =>
              if 0 < m ∧ rss > m then ⟨info2, .restartInvoked⟩
              else ⟨info2, .noAction⟩
            | .noLimit => ⟨info2, .noAction⟩
        | none => ⟨info2, .noAction⟩
    | none =>
      let info2 := { info with status := "dead/not_found" }
      if info2.no_autorestart then ⟨info2, .noAction⟩
      else ⟨info2, .restartInvoked⟩
  | none =>
    if info.status = "running" then
      let info2 := { info with status := "dead/not_found" }
      if info2.no_autorestart then ⟨info2, .noAction⟩
      else ⟨info2, .restartInvoked⟩
    else ⟨info, .noAction⟩

/-! ## The restart path -/

/-- Translation of one iteration of the daemon restart loop
(`_handle_client_command`, daemon.py 394-436): look the record up, stop it
(skipping the start when the stop fails), then start again with the stored
parameters — crucially with `command=info['command'].split()`, which the
start path rejoins with single spaces. -/
def daemonRestartOne (reg : Registry) (name : String)
    (stopBeh : StopOsBehavior) (bindOk : Bool) (spawn : Option Nat)
    (now : Nat) : Registry :=
  match lookupProc reg name with
  | none => reg
  | some info =>
    let stopRes := stopProcessInternalDaemon reg name stopBeh
    if stopRes.success = false then stopRes.registry
    else
      let a : StartArgs :=
        { name := name, command := pySplit info.command, cwd := info.cwd,
          env := info.env, port := info.port,
          log := if info.stdout_log == N_A_CONSOLE then none
                 else some info.stdout_log,
          no_daemon := info.stdout_log == N_A_CONSOLE,
          watch := info.watch,
          max_memory_restart := info.max_memory_restart,
          max_cpu_restart := info.max_cpu_restart,
          restart_delay := info.restart_delay_ms,
          no_autorestart := info.no_autorestart, cron := info.cron,
          time_prefix_logs := info.time_prefix_logs }
      (startProcessInternalDaemon stopRes.registry a bindOk spawn now).registry

/-- A running record carrying the non-grammatical memory limit "mb". -/
def recC6 : ProcRecord :=
  { sampleRecord with pid := some 7, max_memory_restart := some "mb" }

/-- A running record carrying the well-formed memory limit "200MB". -/
def recC6w : ProcRecord :=
  { sampleRecord with pid := some 7, max_memory_restart := some "200MB" }

/-- A plain running record with a pid and no policy thresholds. -/
def recC8 : ProcRecord :=
  { sampleRecord with pid := some 7 }

/-- A running record with a CPU threshold and a memory limit, for the
access-denied witness. -/
def recC8w : ProcRecord :=
  { sampleRecord with
    pid := some 3,
    max_cpu_restart := some 50,
    max_memory_restart := some "200MB" }

/-- A record whose command contains a double space and whose optional
fields are all populated, for replay tests. -/
def recC7 : ProcRecord :=
  { pid := some 5, command := "echo  hi", cwd := some "/srv",
    env := some [("K", "V")], status := "running", start_time := 50,
    port := some 8200, stdout_log := "<log-dir>/app_stdout.log",
    stderr_log := "<log-dir>/app_stderr.log", watch := true,
    max_memory_restart := some "200MB", max_cpu_restart := some 90,
    restart_delay_ms := some 100, no_autorestart := false,
    cron := some "0 0 * * *", time_prefix_logs := true }

/-- The record the daemon registers when it restarts `recC7`: the command
has been split and rejoined (collapsing the double space), the pid and
start time are new, and the custom-log branch now routes both streams to
the old stdout path. -/
def recC7after : ProcRecord :=
  { pid := some 99, command := "echo hi", cwd := some "/srv",
    env := some [("K", "V")], status := "running", start_time := 200,
    port := some 8200, stdout_log := "<log-dir>/app_stdout.log",
    stderr_log := "<log-dir>/app_stdout.log", watch := true,
    max_memory_restart := some "200MB", max_cpu_restart := some 90,
    restart_delay_ms := some 100, no_autorestart := false,
    cron := some "0 0 * * *", time_prefix_logs := true }

/-! ## The clear-all path -/

/-- Daemon-side filesystem state relevant to `clear`: the registry, whether
the log directory exists, and the set of existing files. -/
structure DaemonFsState where
  registry : Registry
  logDirExists : Bool
  files : List String
deriving Repr, DecidableEq

/-- Result of one `clear all`: the final state, whether the log-directory
purge raised, and how many stops reported success. -/
structure ClearAllOutcome where
  state : DaemonFsState
  purgeRaised : Bool
  clearedCount : Nat
deriving Repr, DecidableEq

/-- Set-like insertion used for `logs_to_delete` (daemon.py 532-539). -/
def addLog (acc : List String) (s : String) : List String :=
  if s ∈ acc then acc else acc ++ [s]

/-- The log files referenced by the targeted records (daemon.py 532-539):
truthy, non-console stdout paths, and stderr paths distinct from the stdout
path. -/
def logsToDelete (reg : Registry) (names : List String) : List String :=
  names.foldl (fun acc n =>
    match lookupProc reg n with
    | none => acc
    | some info =>
      let acc1 :=
        if info.stdout_log ≠ "" ∧ info.stdout_log ≠ N_A_CONSOLE then
          addLog acc info.stdout_log
        else acc
      if info.stderr_log ≠ "" ∧ info.stderr_log ≠ N_A_CONSOLE ∧
          info.stderr_log ≠ info.stdout_log then
        addLog acc1 info.stderr_log
      else acc1) []

/-- Translation of the `clear` handler with target `all`
(daemon.py 529-568): collect the referenced log paths, stop every name,
delete the collected files, then purge and recreate the log directory —
except that daemon.py never imports `shutil`, so `shutil.rmtree(LOG_DIR)`
(daemon.py 559) raises `NameError` whenever the directory exists; the
`except` at 562-563 swallows it, skipping the `os.makedirs` recreate, so
the directory and any files not referenced by a record survive.  Finally
`save_processes_daemon({})` empties the registry regardless. -/
def daemonClearAll (st : DaemonFsState) (behOf : String → StopOsBehavior) :
    ClearAllOutcome :=
  let names := st.registry.map Prod.fst
  let logs := logsToDelete st.registry names
  let stops := names.foldl
    (fun (acc : Registry × Nat) n =>
      let o := stopProcessInternalDaemon acc.1 n (behOf n)
      (o.registry, acc.2 + (if o.success then 1 else 0)))
    (st.registry, 0)
  let files1 := st.files.filter (fun f => ¬ f ∈ logs)
  { state := { registry := ([] : Registry), logDirExists := true,
               files := files1 },
    purgeRaised := st.logDirExists,
    clearedCount := stops.2 }

/-- A never-started record whose logs live in the log directory. -/
def recC9 : ProcRecord :=
  { sampleRecord with
    pid := none,
    stdout_log := "<log-dir>/a_stdout.log",
    stderr_log := "<log-dir>/a_stderr.log" }

/-- Initial state for the clear-all scenario: one never-started record whose
logs live in the log directory, plus a stale file there that no record
references. -/
def stC9 : DaemonFsState :=
  { registry := [("a", recC9)],
    logDirExists := true,
    files := ["<log-dir>/a_stdout.log", "<log-dir>/a_stderr.log",
      "<log-dir>/stale.log"] }

/-! ## Helper lemmas -/

theorem lookupProc_removeProc (reg : Registry) (name : String) :
    lookupProc (removeProc reg name) name = none := by
  induction reg with
  | nil => rfl
  | cons kv rest ih =>
    by_cases hk : kv.1 = name
    · simpa [removeProc, List.filter_cons, hk] using ih
    · simpa [removeProc, List.filter_cons, hk, lookupProc] using ih

theorem pyIsSpace_iff {c : Char} :
    pyIsSpace c = true ↔
      (c.toNat = 32 ∨ c.toNat = 9 ∨ c.toNat = 10 ∨ c.toNat = 13 ∨
        c.toNat = 11 ∨ c.toNat = 12) := by
  simp [pyIsSpace]

theorem isDigitChar_iff {c : Char} :
    isDigitChar c = true ↔ (48 ≤ c.toNat ∧ c.toNat ≤ 57) := by
  simp [isDigitChar]

theorem ne_char_of_toNat {c d : Char} (h : ¬ c.toNat = d.toNat) : c ≠ d :=
  fun he => h (congrArg Char.toNat he)

theorem digit_not_space {c : Char} (h : isDigitChar c = true) :
    pyIsSpace c = false := by
  have hb := isDigitChar_iff.mp h
  rw [← Bool.not_eq_true, pyIsSpace_iff]
  omega

theorem digit_ne_plus {c : Char} (h : isDigitChar c = true) : c ≠ '+' := by
  have hb := isDigitChar_iff.mp h
  have hp : ('+').toNat = 43 := rfl
  exact ne_char_of_toNat (by omega)

theorem digit_ne_minus {c : Char} (h : isDigitChar c = true) : c ≠ '-' := by
  have hb := isDigitChar_iff.mp h
  have hp : ('-').toNat = 45 := rfl
  exact ne_char_of_toNat (by omega)

theorem digit_ne_dot {c : Char} (h : isDigitChar c = true) : c ≠ '.' := by
  have hb := isDigitChar_iff.mp h
  have hp : ('.').toNat = 46 := rfl
  exact ne_char_of_toNat (by omega)

theorem digit_ne_m {c : Char} (h : isDigitChar c = true) : c ≠ 'm' := by
  have hb := isDigitChar_iff.mp h
  have hp : ('m').toNat = 109 := rfl
  exact ne_char_of_toNat (by omega)

theorem digit_ne_g {c : Char} (h : isDigitChar c = true) : c ≠ 'g' := by
  have hb := isDigitChar_iff.mp h
  have hp : ('g').toNat = 103 := rfl
  exact ne_char_of_toNat (by omega)

theorem space_ne_m {c : Char} (h : pyIsSpace c = true) : c ≠ 'm' := by
  have hb := pyIsSpace_iff.mp h
  have hp : ('m').toNat = 109 := rfl
  exact ne_char_of_toNat (by omega)

theorem space_ne_g {c : Char} (h : pyIsSpace c = true) : c ≠ 'g' := by
  have hb := pyIsSpace_iff.mp h
  have hp : ('g').toNat = 103 := rfl
  exact ne_char_of_toNat (by omega)

theorem dot_not_digit : isDigitChar '.' = false := rfl

theorem takeWhile_all {α : Type} {p : α → Bool} {xs : List α}
    (h : ∀ c ∈ xs, p c = true) : xs.takeWhile p = xs := by
  induction xs with
  | nil => rfl
  | cons x xs ih =>
    have hx := h x (by simp)
    simp [List.takeWhile_cons, hx,
      ih (fun c hc => h c (List.mem_cons_of_mem _ hc))]

theorem dropWhile_all {α : Type} {p : α → Bool} {xs : List α}
    (h : ∀ c ∈ xs, p c = true) : xs.dropWhile p = [] := by
  induction xs with
  | nil => rfl
  | cons x xs ih =>
    have hx := h x (by simp)
    simp [List.dropWhile_cons, hx,
      ih (fun c hc => h c (List.mem_cons_of_mem _ hc))]

theorem dropWhile_append_all {α : Type} {p : α → Bool} {xs ys : List α}
    (h : ∀ c ∈ xs, p c = true) :
    (xs ++ ys).dropWhile p = ys.dropWhile p := by
  induction xs with
  | nil => rfl
  | cons x xs ih =>
    have hx := h x (by simp)
    simp [List.dropWhile_cons, hx,
      ih (fun c hc => h c (List.mem_cons_of_mem _ hc))]

theorem takeWhile_append_stop {α : Type} {p : α → Bool} {xs : List α}
    {y : α} {ys : List α} (h : ∀ c ∈ xs, p c = true) (hy : p y = false) :
    (xs ++ y :: ys).takeWhile p = xs := by
  induction xs with
  | nil => simp [List.takeWhile_cons, hy]
  | cons x xs ih =>
    have hx := h x (by simp)
    simp [List.takeWhile_cons, hx,
      ih (fun c hc => h c (List.mem_cons_of_mem _ hc))]

theorem dropWhile_append_stop {α : Type} {p : α → Bool} {xs : List α}
    {y : α} {ys : List α} (h : ∀ c ∈ xs, p c = true) (hy : p y = false) :
    (xs ++ y :: ys).dropWhile p = y :: ys := by
  induction xs with
  | nil => simp [List.dropWhile_cons, hy]
  | cons x xs ih =>
    have hx := h x (by simp)
    simp [List.dropWhile_cons, hx,
      ih (fun c hc => h c (List.mem_cons_of_mem _ hc))]

theorem containsPair_append (a b : Char) (xs ys : List Char) :
    containsPair a b (xs ++ a :: b :: ys) = true := by
  induction xs with
  | nil => simp [containsPair]
  | cons x xs ih =>
    cases xs with
    | nil =>
      show containsPair a b (x :: a :: b :: ys) = true
      rw [containsPair]
      split
      · rfl
      · simpa using ih
    | cons x2 xs2 =>
      show containsPair a b (x :: x2 :: (xs2 ++ a :: b :: ys)) = true
      rw [containsPair]
      split
      · rfl
      · exact ih

theorem containsPair_not {a b : Char} {xs : List Char}
    (h : ∀ c ∈ xs, c ≠ a) : containsPair a b xs = false := by
  induction xs with
  | nil => rfl
  | cons x xs ih =>
    cases xs with
    | nil => rfl
    | cons y rest =>
      rw [containsPair, if_neg (fun hc => h x (by simp) hc.1)]
      exact ih (fun c hc => h c (List.mem_cons_of_mem _ hc))

theorem removePair_not {a b : Char} {xs : List Char}
    (h : ∀ c ∈ xs, c ≠ a) : removePair a b xs = xs := by
  induction xs with
  | nil => rfl
  | cons x xs ih =>
    cases xs with
    | nil => rfl
    | cons y rest =>
      rw [removePair, if_neg (fun hc => h x (by simp) hc.1)]
      rw [ih (fun c hc => h c (List.mem_cons_of_mem _ hc))]

theorem removePair_append {a b : Char} {xs : List Char} {ys : List Char}
    (h : ∀ c ∈ xs, c ≠ a) (hys : ∀ c ∈ ys, c ≠ a) :
    removePair a b (xs ++ a :: b :: ys) = xs ++ ys := by
  induction xs with
  | nil =>
    show removePair a b (a :: b :: ys) = ys
    rw [removePair, if_pos ⟨rfl, rfl⟩]
    exact removePair_not hys
  | cons x xs ih =>
    cases xs with
    | nil =>
      show removePair a b (x :: a :: b :: ys) = x :: ys
      rw [removePair, if_neg (fun hc => h x (by simp) hc.1)]
      have := ih (by simp)
      simpa using this
    | cons x2 xs2 =>
      show removePair a b (x :: x2 :: (xs2 ++ a :: b :: ys)) = x :: (x2 :: xs2 ++ ys)
      rw [removePair, if_neg (fun hc => h x (by simp) hc.1)]
      have := ih (fun c hc => h c (List.mem_cons_of_mem _ hc))
      simpa using this

theorem stripWs_sandwich {ws1 mid ws2 : List Char}
    (h1 : ∀ c ∈ ws1, pyIsSpace c = true) (h2 : ∀ c ∈ ws2, pyIsSpace c = true)
    {d1 : Char} {mid1 : List Char} (hhead : mid = d1 :: mid1)
    (hd1 : pyIsSpace d1 = false)
    {d2 : Char} {mid2 : List Char} (hlast : mid = mid2 ++ [d2])
    (hd2 : pyIsSpace d2 = false) :
    stripWs (ws1 ++ mid ++ ws2) = mid := by
  unfold stripWs
  have e1 : (ws1 ++ mid ++ ws2).dropWhile pyIsSpace = mid ++ ws2 := by
    rw [List.append_assoc, dropWhile_append_all h1, hhead, List.cons_append,
      List.dropWhile_cons, hd1]
    simp [← hhead]
  rw [e1, List.reverse_append]
  have h2r : ∀ c ∈ ws2.reverse, pyIsSpace c = true := by
    intro c hc
    exact h2 c (List.mem_reverse.mp hc)
  rw [dropWhile_append_all h2r, hlast]
  rw [List.reverse_append, List.reverse_singleton, List.singleton_append,
    List.dropWhile_cons, hd2]
  simp [← hlast]

theorem signSplit_digit {c : Char} {r : List Char}
    (h : isDigitChar c = true) : signSplit (c :: r) = (1, c :: r) := by
  rw [signSplit, if_neg (digit_ne_plus h), if_neg (digit_ne_minus h)]

theorem pythonFloat_int {X n : List Char} (hn : n ≠ [])
    (hdn : ∀ c ∈ n, isDigitChar c = true) (hstrip : stripWs X = n) :
    pythonFloat X = some (decValue n []) := by
  cases n with
  | nil => exact absurd rfl hn
  | cons c n1 =>
    have hc := hdn c (by simp)
    rw [pythonFloat, hstrip, signSplit_digit hc]
    rw [takeWhile_all hdn, dropWhile_all hdn]
    rw [show fracSplit [] = ([], []) from rfl]
    rw [if_neg (by simp)]
    rw [show expSplit [] = ((0:Int), ([]:List Char)) from rfl]
    rw [if_pos (by simp)]
    simp [zpow_zero]

theorem pythonFloat_frac {X n f : List Char} (hn : n ≠ [])
    (hdn : ∀ c ∈ n, isDigitChar c = true)
    (hdf : ∀ c ∈ f, isDigitChar c = true)
    (hstrip : stripWs X = n ++ '.' :: f) :
    pythonFloat X = some (decValue n f) := by
  cases n with
  | nil => exact absurd rfl hn
  | cons c n1 =>
    have hc := hdn c (by simp)
    have hsign : signSplit ((c :: n1) ++ '.' :: f) = (1, (c :: n1) ++ '.' :: f) := by
      rw [List.cons_append]
      exact signSplit_digit hc
    rw [pythonFloat, hstrip, hsign]
    rw [takeWhile_append_stop hdn dot_not_digit,
      dropWhile_append_stop hdn dot_not_digit]
    rw [show ∀ l : List Char, fracSplit ('.' :: l) =
      (l.takeWhile isDigitChar, l.dropWhile isDigitChar) from fun l => rfl]
    rw [takeWhile_all hdf, dropWhile_all hdf]
    rw [if_neg (by simp [hn])]
    rw [show expSplit [] = ((0:Int), ([]:List Char)) from rfl]
    rw [if_pos (by simp)]
    simp [zpow_zero]

theorem parseFrac_inv {l f r2 : List Char} (h : parseFrac l = some (f, r2)) :
    (f = [] ∧ r2 = l) ∨
    (∃ r, l = '.' :: r ∧ f = r.takeWhile isDigitChar ∧ f ≠ [] ∧
      r2 = r.dropWhile isDigitChar) := by
  cases l with
  | nil =>
    rw [parseFrac] at h
    simp only [Option.some.injEq, Prod.mk.injEq] at h
    exact Or.inl ⟨h.1.symm, h.2.symm⟩
  | cons c r =>
    rw [parseFrac] at h
    by_cases hc : c = '.'
    · rw [if_pos hc] at h
      by_cases he : (r.takeWhile isDigitChar).isEmpty
      · rw [if_pos he] at h
        exact absurd h (by simp)
      · rw [if_neg he] at h
        simp only [Option.some.injEq, Prod.mk.injEq] at h
        refine Or.inr ⟨r, by rw [hc], h.1.symm, ?_, h.2.symm⟩
        rw [← h.1]
        intro h0
        exact he (by simp [h0])
    · rw [if_neg hc] at h
      simp only [Option.some.injEq, Prod.mk.injEq] at h
      exact Or.inl ⟨h.1.symm, h.2.symm⟩

theorem parseUnit_inv {l : List Char} {isGB : Bool} {r3 : List Char}
    (h : parseUnit l = some (isGB, r3)) :
    l = (if isGB then 'g' else 'm') :: 'b' :: r3 := by
  match l with
  | [] =>
    rw [show parseUnit ([] : List Char) = none from rfl] at h
    exact Option.noConfusion h
  | [c] =>
    rw [show parseUnit [c] = none from rfl] at h
    exact Option.noConfusion h
  | c :: d :: r =>
    rw [parseUnit] at h
    by_cases h1 : c = 'm' ∧ d = 'b'
    · rw [if_pos h1] at h
      simp only [Option.some.injEq, Prod.mk.injEq] at h
      rw [h1.1, h1.2, ← h.1, ← h.2]
      simp
    · rw [if_neg h1] at h
      by_cases h2 : c = 'g' ∧ d = 'b'
      · rw [if_pos h2] at h
        simp only [Option.some.injEq, Prod.mk.injEq] at h
        rw [h2.1, h2.2, ← h.1, ← h.2]
        simp
      · rw [if_neg h2] at h
        exact Option.noConfusion h

/-- Core of the grammar-to-code agreement: with the lowercased input in the
sandwich shape the grammar accepts, the sweep's substring-based parse
computes the same limit. -/
theorem parseMemLimitCore_shape {ws1 n frac ws2 r3 f : List Char}
    {isGB : Bool}
    (hws1 : ∀ c ∈ ws1, pyIsSpace c = true)
    (hws2 : ∀ c ∈ ws2, pyIsSpace c = true)
    (hr3 : ∀ c ∈ r3, pyIsSpace c = true)
    (hneq : n ≠ []) (hdn : ∀ c ∈ n, isDigitChar c = true)
    (hdf : ∀ c ∈ f, isDigitChar c = true)
    (hfrac : (frac = [] ∧ f = []) ∨ (frac = '.' :: f ∧ f ≠ [])) :
    parseMemLimitCore (ws1 ++ n ++ frac ++ ws2 ++
        ((if isGB then 'g' else 'm') :: 'b' :: r3)) =
      MemLimitOutcome.limitMB ((if isGB then (1024:ℚ) else 1) * decValue n f) := by
  have hwsE : ∀ c ∈ ws2 ++ r3, pyIsSpace c = true :=
    List.forall_mem_append.2 ⟨hws2, hr3⟩
  have hfrac_digits : ∀ c ∈ frac, c = '.' ∨ isDigitChar c = true := by
    rcases hfrac with ⟨hfe, _⟩ | ⟨hfc, _⟩
    · rw [hfe]; intro c hc; simp at hc
    · rw [hfc]; intro c hc
      rcases List.mem_cons.mp hc with rfl | hcf
      · exact Or.inl rfl
      · exact Or.inr (hdf c hcf)
  have hmid_head : ∃ d1 mid1, n ++ frac = d1 :: mid1 ∧ pyIsSpace d1 = false := by
    cases n with
    | nil => exact absurd rfl hneq
    | cons cn n1 =>
      exact ⟨cn, n1 ++ frac, by simp, digit_not_space (hdn cn (by simp))⟩
  have hmid_last : ∃ d2 mid2, n ++ frac = mid2 ++ [d2] ∧ pyIsSpace d2 = false := by
    rcases hfrac with ⟨hfe, hfe2⟩ | ⟨hfc, hfne⟩
    · rcases List.eq_nil_or_concat n with h0 | ⟨L, b, hL⟩
      · exact absurd h0 hneq
      · refine ⟨b, L, ?_, digit_not_space (hdn b ?_)⟩
        · rw [hfe, hL, List.concat_eq_append]; simp
        · rw [hL, List.concat_eq_append]; simp
    · rcases List.eq_nil_or_concat f with h0 | ⟨L, b, hL⟩
      · exact absurd h0 hfne
      · refine ⟨b, n ++ '.' :: L, ?_, digit_not_space (hdf b ?_)⟩
        · rw [hfc, hL, List.concat_eq_append]; simp
        · rw [hL, List.concat_eq_append]; simp
  obtain ⟨d1, mid1, hh, hd1⟩ := hmid_head
  obtain ⟨d2, mid2, hl, hd2⟩ := hmid_last
  have hstrip0 : stripWs (ws1 ++ (n ++ frac) ++ (ws2 ++ r3)) = n ++ frac :=
    stripWs_sandwich hws1 hwsE hh hd1 hl hd2
  have hfloat : pythonFloat (ws1 ++ (n ++ frac) ++ (ws2 ++ r3)) =
      some (decValue n f) := by
    rcases hfrac with ⟨hfe, hfe2⟩ | ⟨hfc, hfne⟩
    · subst hfe2
      refine pythonFloat_int hneq hdn ?_
      rw [hstrip0, hfe, List.append_nil]
    · refine pythonFloat_frac hneq hdn hdf ?_
      rw [hstrip0, hfc]
  have hassoc : (ws1 ++ n ++ frac ++ ws2) ++ r3 =
      ws1 ++ (n ++ frac) ++ (ws2 ++ r3) := by
    simp [List.append_assoc]
  cases isGB with
  | false =>
    have hPm : ∀ c ∈ ws1 ++ n ++ frac ++ ws2, c ≠ 'm' := by
      intro c hc
      simp only [List.append_assoc, List.mem_append] at hc
      rcases hc with hc | hc | hc | hc
      · exact space_ne_m (hws1 c hc)
      · exact digit_ne_m (hdn c hc)
      · rcases hfrac_digits c hc with rfl | hd
        · intro h0; exact absurd (congrArg Char.toNat h0) (by decide)
        · exact digit_ne_m hd
      · exact space_ne_m (hws2 c hc)
    have hr3m : ∀ c ∈ r3, c ≠ 'm' := fun c hc => space_ne_m (hr3 c hc)
    have hmb : containsPair 'm' 'b'
        ((ws1 ++ n ++ frac ++ ws2) ++ 'm' :: 'b' :: r3) = true :=
      containsPair_append 'm' 'b' _ _
    have hrm : removePair 'm' 'b'
        ((ws1 ++ n ++ frac ++ ws2) ++ 'm' :: 'b' :: r3) =
        (ws1 ++ n ++ frac ++ ws2) ++ r3 :=
      removePair_append hPm hr3m
    show parseMemLimitCore ((ws1 ++ n ++ frac ++ ws2) ++ 'm' :: 'b' :: r3) = _
    rw [parseMemLimitCore, if_pos hmb, hrm, hassoc, hfloat]
    simp
  | true =>
    have hallm : ∀ c ∈ (ws1 ++ n ++ frac ++ ws2) ++ 'g' :: 'b' :: r3,
        c ≠ 'm' := by
      intro c hc
      simp only [List.append_assoc, List.mem_append, List.mem_cons] at hc
      rcases hc with hc | hc | hc | hc | rfl | rfl | hc
      · exact space_ne_m (hws1 c hc)
      · exact digit_ne_m (hdn c hc)
      · rcases hfrac_digits c hc with rfl | hd
        · intro h0; exact absurd (congrArg Char.toNat h0) (by decide)
        · exact digit_ne_m hd
      · exact space_ne_m (hws2 c hc)
      · intro h0; exact absurd (congrArg Char.toNat h0) (by decide)
      · intro h0; exact absurd (congrArg Char.toNat h0) (by decide)
      · exact space_ne_m (hr3 c hc)
    have hPg : ∀ c ∈ ws1 ++ n ++ frac ++ ws2, c ≠ 'g' := by
      intro c hc
      simp only [List.append_assoc, List.mem_append] at hc
      rcases hc with hc | hc | hc | hc
      · exact space_ne_g (hws1 c hc)
      · exact digit_ne_g (hdn c hc)
      · rcases hfrac_digits c hc with rfl | hd
        · intro h0; exact absurd (congrArg Char.toNat h0) (by decide)
        · exact digit_ne_g hd
      · exact space_ne_g (hws2 c hc)
    have hr3g : ∀ c ∈ r3, c ≠ 'g' := fun c hc => space_ne_g (hr3 c hc)
    have hnm : containsPair 'm' 'b'
        ((ws1 ++ n ++ frac ++ ws2) ++ 'g' :: 'b' :: r3) = false :=
      containsPair_not hallm
    have hgb : containsPair 'g' 'b'
        ((ws1 ++ n ++ frac ++ ws2) ++ 'g' :: 'b' :: r3) = true :=
      containsPair_append 'g' 'b' _ _
    have hrg : removePair 'g' 'b'
        ((ws1 ++ n ++ frac ++ ws2) ++ 'g' :: 'b' :: r3) =
        (ws1 ++ n ++ frac ++ ws2) ++ r3 :=
      removePair_append hPg hr3g
    show parseMemLimitCore ((ws1 ++ n ++ frac ++ ws2) ++ 'g' :: 'b' :: r3) = _
    rw [parseMemLimitCore,
      if_neg (fun hcontra => by rw [hnm] at hcontra; exact Bool.noConfusion hcontra),
      if_pos hgb, hrg, hassoc, hfloat]
    simp [mul_comm]

/-- Grammar-to-code agreement: whenever the spec's memory-limit grammar
accepts the (lowercased) input with value v, the sweep's substring-based
parse yields the same limit v. -/
theorem parseMemLimitCore_of_grammar {cs : List Char} {v : ℚ}
    (h : memLimitGrammarCore cs = some v) :
    parseMemLimitCore cs = MemLimitOutcome.limitMB v := by
  simp only [memLimitGrammarCore] at h
  cases hne : ((cs.dropWhile pyIsSpace).takeWhile isDigitChar).isEmpty with
  | true => rw [if_pos hne] at h; exact absurd h (by simp)
  | false =>
  rw [if_neg (by simp [hne])] at h
  cases hpf : parseFrac ((cs.dropWhile pyIsSpace).dropWhile isDigitChar) with
  | none => simp only [hpf] at h; exact Option.noConfusion h
  | some fr =>
  obtain ⟨f, r2⟩ := fr
  simp only [hpf] at h
  cases hpu : parseUnit (r2.dropWhile pyIsSpace) with
  | none => simp only [hpu] at h; exact Option.noConfusion h
  | some ur =>
  obtain ⟨isGB, r3⟩ := ur
  simp only [hpu] at h
  cases hall : r3.all pyIsSpace with
  | false => rw [if_neg (by simp [hall])] at h; exact absurd h (by simp)
  | true =>
  rw [if_pos hall] at h
  injection h with hv
  -- ingredients of the decomposition
  have hws1 : ∀ c ∈ cs.takeWhile pyIsSpace, pyIsSpace c = true :=
    fun _ hc => List.mem_takeWhile_imp hc
  have hcs0 : cs.takeWhile pyIsSpace ++ cs.dropWhile pyIsSpace = cs :=
    List.takeWhile_append_dropWhile pyIsSpace cs
  have hdn : ∀ c ∈ (cs.dropWhile pyIsSpace).takeWhile isDigitChar,
      isDigitChar c = true := fun _ hc => List.mem_takeWhile_imp hc
  have hneq : (cs.dropWhile pyIsSpace).takeWhile isDigitChar ≠ [] := by
    intro h0
    rw [h0] at hne
    exact Bool.noConfusion hne
  have hr1 : (cs.dropWhile pyIsSpace).takeWhile isDigitChar ++
      (cs.dropWhile pyIsSpace).dropWhile isDigitChar = cs.dropWhile pyIsSpace :=
    List.takeWhile_append_dropWhile isDigitChar _
  have hws2 : ∀ c ∈ r2.takeWhile pyIsSpace, pyIsSpace c = true :=
    fun _ hc => List.mem_takeWhile_imp hc
  have hr2 : r2.takeWhile pyIsSpace ++ r2.dropWhile pyIsSpace = r2 :=
    List.takeWhile_append_dropWhile pyIsSpace r2
  have hunit : r2.dropWhile pyIsSpace =
      (if isGB then 'g' else 'm') :: 'b' :: r3 := parseUnit_inv hpu
  have hr3s : ∀ c ∈ r3, pyIsSpace c = true := List.all_eq_true.mp hall
  rcases parseFrac_inv hpf with ⟨hf0, hr20⟩ | ⟨r, hrd, hft, hfne, hr2d⟩
  · -- no fraction: rd = r2
    have hcs2 : cs = cs.takeWhile pyIsSpace ++
        (cs.dropWhile pyIsSpace).takeWhile isDigitChar ++ ([] : List Char) ++
        r2.takeWhile pyIsSpace ++ ((if isGB then 'g' else 'm') :: 'b' :: r3) := by
      conv_lhs => rw [← hcs0, ← hr1, ← hr20, ← hr2, hunit]
      simp [List.append_assoc]
    rw [hcs2]
    rw [parseMemLimitCore_shape hws1 hws2 hr3s hneq hdn (by simp)
      (Or.inl ⟨rfl, rfl⟩)]
    rw [← hv, hf0]
  · -- fraction: rd = '.' :: (f ++ r2)
    have hdf : ∀ c ∈ f, isDigitChar c = true := by
      intro c hc
      rw [hft] at hc
      exact List.mem_takeWhile_imp hc
    have hrsplit : f ++ r2 = r := by
      rw [hft, hr2d]
      exact List.takeWhile_append_dropWhile isDigitChar r
    have hcs2 : cs = cs.takeWhile pyIsSpace ++
        (cs.dropWhile pyIsSpace).takeWhile isDigitChar ++ ('.' :: f) ++
        r2.takeWhile pyIsSpace ++ ((if isGB then 'g' else 'm') :: 'b' :: r3) := by
      conv_lhs => rw [← hcs0, ← hr1, hrd, ← hrsplit, ← hr2, hunit]
      simp [List.append_assoc]
    rw [hcs2]
    rw [parseMemLimitCore_shape hws1 hws2 hr3s hneq hdn hdf
      (Or.inr ⟨rfl, hfne⟩)]
    rw [← hv]

/-- Grammar-to-code agreement lifted to the stored string. -/
theorem parseMemLimit_of_grammar {s : String} {v : ℚ}
    (h : memLimitGrammar s = some v) :
    parseMemLimit s = MemLimitOutcome.limitMB v :=
  parseMemLimitCore_of_grammar h

/-! ## Claim C1 -/

/-- C1 counterexample: the claim says that on every outcome except the
OS forbidding termination the record is removed.  When the forced kill
itself fails (daemon.py 207-209: the generic handler after `proc.kill()`),
the code returns an error without removing the record, although the outcome
is not access-denied.  So the claim is false at this input. -/
theorem pynodex_C1_counterexample :
    (stopProcessInternalDaemon [("a", sampleRecord)] "a"
        StopOsBehavior.killError).success = false ∧
    lookupProc (stopProcessInternalDaemon [("a", sampleRecord)] "a"
        StopOsBehavior.killError).registry "a" = some sampleRecord ∧
    StopOsBehavior.killError ≠ StopOsBehavior.accessDenied := by
  decide

/-- C1 (amended): for a registered name whose record holds a pid, the stop
operation attempts the graceful-termination signal with a 5-second wait and,
on timeout, the forced kill with a 2-second wait; it fails exactly on
access-denied, on a failure of the forced kill, and on any other stop error,
and the record is removed from the registry exactly when the operation
reports success (on failure the registry is unchanged). -/
theorem pynodex_C1 (reg : Registry) (name : String) (info : ProcRecord)
    (p : Nat) (beh : StopOsBehavior)
    (hlook : lookupProc reg name = some info) (hpid : info.pid = some p) :
    ((stopProcessInternalDaemon reg name beh).success = false ↔
      (beh = .accessDenied ∨ beh = .killError ∨ beh = .otherError)) ∧
    (lookupProc (stopProcessInternalDaemon reg name beh).registry name = none ↔
      (stopProcessInternalDaemon reg name beh).success = true) ∧
    ((stopProcessInternalDaemon reg name beh).success = false →
      (stopProcessInternalDaemon reg name beh).registry = reg) ∧
    ((stopProcessInternalDaemon reg name beh).signals = [.terminate p 5] ∨
      (stopProcessInternalDaemon reg name beh).signals =
        [.terminate p 5, .kill p 2]) := by
  simp only [stopProcessInternalDaemon, hlook, hpid]
  cases beh <;>
    simp [lookupProc_removeProc, hlook]

/-- C1 witness: the amended theorem applied at a concrete registry with a
record holding pid 10, stopped with the graceful outcome. -/
theorem pynodex_C1_witness :
    lookupProc [("a", sampleRecord)] "a" = some sampleRecord ∧
    sampleRecord.pid = some 10 ∧
    (lookupProc (stopProcessInternalDaemon [("a", sampleRecord)] "a"
        StopOsBehavior.exitsOnTerminate).registry "a" = none ↔
      (stopProcessInternalDaemon [("a", sampleRecord)] "a"
        StopOsBehavior.exitsOnTerminate).success = true) :=
  ⟨by decide, by decide,
    (pynodex_C1 [("a", sampleRecord)] "a" sampleRecord 10
      StopOsBehavior.exitsOnTerminate (by decide) (by decide)).2.1⟩

/-! ## Claim C10 -/

/-- C10: stopping a registered record whose pid field is absent succeeds,
removes the record, and sends no termination signal
(daemon.py 213-219: the no-pid branch only warns, then deletes and saves;
core.py 307-311 behaves the same on the unsupervised path). -/
theorem pynodex_C10 (reg : Registry) (name : String) (info : ProcRecord)
    (beh : StopOsBehavior)
    (hlook : lookupProc reg name = some info) (hpid : info.pid = none) :
    (stopProcessInternalDaemon reg name beh).success = true ∧
    lookupProc (stopProcessInternalDaemon reg name beh).registry name = none ∧
    (stopProcessInternalDaemon reg name beh).signals = [] := by
  simp [stopProcessInternalDaemon, hlook, hpid, lookupProc_removeProc]

/-- C10 witness: a concrete never-started record. -/
theorem pynodex_C10_witness :
    (stopProcessInternalDaemon [("idle", { sampleRecord with pid := none })]
        "idle" StopOsBehavior.otherError).success = true ∧
    lookupProc (stopProcessInternalDaemon
        [("idle", { sampleRecord with pid := none })] "idle"
        StopOsBehavior.otherError).registry "idle" = none ∧
    (stopProcessInternalDaemon [("idle", { sampleRecord with pid := none })]
        "idle" StopOsBehavior.otherError).signals = [] :=
  pynodex_C10 [("idle", { sampleRecord with pid := none })] "idle"
    { sampleRecord with pid := none } StopOsBehavior.otherError
    (by decide) (by decide)

/-! ## Claim C2 -/

/-- C2: the claim requires a start request whose name is already registered
to fail without spawning and without touching the registry.  The CLI path
indeed rejects the collision (core.py 169-171), but the daemon path
(daemon.py 87-176) performs no collision check at all: at the same input it
spawns a child and overwrites the record, orphaning the old pid 10. -/
theorem pynodex_C2_divergence :
    cliStartPrechecks [("web", sampleRecord)] "web" ["sleep", "30"] none =
      some CliStartReject.nameCollision ∧
    (startProcessInternalDaemon [("web", sampleRecord)] argsC2 true
        (some 20) 100).success = true ∧
    (startProcessInternalDaemon [("web", sampleRecord)] argsC2 true
        (some 20) 100).spawned = some 20 ∧
    (lookupProc (startProcessInternalDaemon [("web", sampleRecord)] argsC2
        true (some 20) 100).registry "web").map ProcRecord.pid =
      some (some 20) ∧
    (startProcessInternalDaemon [("web", sampleRecord)] argsC2 true
        (some 20) 100).registry ≠ [("web", sampleRecord)] := by
  decide

/-! ## Claim C3 -/

/-- C3: the claim requires a start request to fail when another record
already holds the same port.  The CLI path rejects it (core.py 182-184),
but the daemon path checks only the advisory bind (daemon.py 93-101) —
it has no range check and no registry scan — so when the old child is dead
and the bind succeeds, the daemon spawns and registers a second record with
the same port, violating the port-uniqueness invariant. -/
theorem pynodex_C3_divergence :
    cliStartPrechecks [("a", { sampleRecord with port := some 8123 })] "b"
        ["server"] (some 8123) = some (CliStartReject.portDuplicate "a") ∧
    (startProcessInternalDaemon [("a", { sampleRecord with port := some 8123 })]
        argsC3 true (some 21) 100).success = true ∧
    (lookupProc (startProcessInternalDaemon
        [("a", { sampleRecord with port := some 8123 })] argsC3 true
        (some 21) 100).registry "a").map ProcRecord.port =
      some (some 8123) ∧
    (lookupProc (startProcessInternalDaemon
        [("a", { sampleRecord with port := some 8123 })] argsC3 true
        (some 21) 100).registry "b").map ProcRecord.port =
      some (some 8123) := by
  decide

/-! ## Claim C4 -/

/-- C4: the claim says Load returns the empty table on every content that is
not a valid registry document and never raises.  The code does return the
empty table for a missing file and for valid-UTF-8 content that fails the
JSON parse, but a file whose bytes are not UTF-8 makes it raise
`UnicodeDecodeError` (only `json.JSONDecodeError` is caught), and a JSON
document that is not an object is returned as-is rather than as the empty
table. -/
theorem pynodex_C4_load :
    load_processes RegistryFile.missing = LoadResult.table [] ∧
    load_processes RegistryFile.notJson = LoadResult.table [] ∧
    load_processes RegistryFile.notUtf8 = LoadResult.raisedUnicodeError ∧
    load_processes RegistryFile.jsonNonObject = LoadResult.nonTable := by
  decide

/-! ## Claim C5 -/

/-- C5 counterexample: the save of a concrete table is not an atomic
temp-file-plus-rename replacement. -/
theorem pynodex_C5_counterexample :
    atomicRenameSave (save_processes [("web", sampleRecord)]) = false ∧
    atomicRenameSave (save_processes_daemon [("web", sampleRecord)]) =
      false := by
  decide

/-- C5 (amended): for every table, both writers replace the registry by
opening the registry file itself in truncating write mode and dumping the
document into it directly — the trace contains no rename and no flush, only
the parent-directory creation and the direct write. -/
theorem pynodex_C5 (t : Registry) :
    ((save_processes t).any isRenameOp = false ∧
      (save_processes t).any isDirectOpen = true) ∧
    ((save_processes_daemon t).any isRenameOp = false ∧
      (save_processes_daemon t).any isDirectOpen = true) := by
  constructor <;> exact ⟨rfl, rfl⟩

/-! ## Claim C6 -/

/-- C6 counterexample: the string "mb" does not match the grammar, so the
claim says it is treated as no limit (no restart, no error).  But the sweep
finds the substring "mb", deletes it, calls `float("")`, and the resulting
`ValueError` propagates, aborting the sweep (daemon.py 258-263 have no
handler). -/
theorem pynodex_C6_counterexample :
    memLimitGrammar "mb" = none ∧
    parseMemLimit "mb" = MemLimitOutcome.valueError ∧
    (monitorStep recC6 (ProbeResult.live "running" 0 5)).action =
      SweepAction.raisedError := by
  decide

/-- C6 (amended): for a record with a pid, no CPU threshold, and a
`max_memory_restart` string that matches the grammar with a positive value
v, the sweep restarts the child exactly when its resident set in MiB
exceeds v, and never raises; but a non-matching string is treated as no
limit only when it contains neither "mb" nor "gb" case-insensitively — one
that contains such a unit substring with a non-numeric residue raises an
uncaught error instead (see the counterexample). -/
theorem pynodex_C6 (info : ProcRecord) (p : Nat) (s : String) (v : ℚ)
    (st : String) (cpu rss : ℚ)
    (hpid : info.pid = some p) (hcpu : info.max_cpu_restart = none)
    (hmem : info.max_memory_restart = some s)
    (hg : memLimitGrammar s = some v) (hv : 0 < v) :
    ((monitorStep info (ProbeResult.live st cpu rss)).action =
        SweepAction.restartInvoked ↔ rss > v) ∧
    (monitorStep info (ProbeResult.live st cpu rss)).action ≠
      SweepAction.raisedError := by
  have hs : s ≠ "" := by
    intro h0
    rw [h0, show memLimitGrammar "" = none from rfl] at hg
    exact Option.noConfusion hg
  have hparse := parseMemLimit_of_grammar hg
  simp only [monitorStep, hpid, get_process_info_daemon, hcpu, hmem,
    cpuLimitTrips, Bool.false_eq_true, if_false, if_neg hs, hparse]
  by_cases hr : rss > v
  · rw [if_pos ⟨hv, hr⟩]
    simp [hr]
  · rw [if_neg (fun hand => hr hand.2)]
    simp [hr]

/-- C6 witness: the amended theorem at the limit "200MB" and a resident set
of 300 MiB. -/
theorem pynodex_C6_witness :
    ((monitorStep recC6w (ProbeResult.live "running" 0 300)).action =
        SweepAction.restartInvoked ↔ (300:ℚ) > 200) ∧
    (monitorStep recC6w (ProbeResult.live "running" 0 300)).action ≠
      SweepAction.raisedError :=
  pynodex_C6 recC6w 7 "200MB" 200 "running" 0 300 rfl rfl rfl
    (by
      rw [show memLimitGrammar "200MB" =
        some (1 * decValue ['2', '0', '0'] []) from rfl]
      norm_num [decValue, digitsToNat,
        show ('2').toNat = 50 from rfl, show ('0').toNat = 48 from rfl])
    (by norm_num)

/-! ## Claim C7 -/

/-- C7: the claim says restart replays the command verbatim.  The daemon
restart path passes `command=info['command'].split()` and the start path
rejoins with single spaces, so the stored command "echo  hi" (double space)
comes back as "echo hi"; every other claimed field (cwd, env, port, and the
policy fields) is preserved, while pid and start_time change. -/
theorem pynodex_C7_command_rewritten :
    lookupProc (daemonRestartOne [("app", recC7)] "app"
        StopOsBehavior.exitsOnTerminate true (some 99) 200) "app" =
      some recC7after ∧
    recC7.command = "echo  hi" ∧
    recC7after.command = "echo hi" ∧
    recC7after.command ≠ recC7.command ∧
    recC7after.cwd = recC7.cwd ∧
    recC7after.env = recC7.env ∧
    recC7after.port = recC7.port ∧
    recC7after.max_cpu_restart = recC7.max_cpu_restart ∧
    recC7after.max_memory_restart = recC7.max_memory_restart ∧
    recC7after.restart_delay_ms = recC7.restart_delay_ms ∧
    recC7after.no_autorestart = recC7.no_autorestart ∧
    recC7after.watch = recC7.watch ∧
    recC7after.cron = recC7.cron ∧
    recC7after.time_prefix_logs = recC7.time_prefix_logs ∧
    recC7after.pid ≠ recC7.pid ∧
    recC7after.start_time ≠ recC7.start_time := by
  decide

/-! ## Claim C8 -/

/-- C8 counterexample: the claim says an Access-Denied probe leaves the
record entirely unchanged, status included.  The sweep's live branch
(daemon.py 246-247) writes the probe status into the record, so a record
whose status was "running" comes out with status "Access Denied". -/
theorem pynodex_C8_counterexample :
    (monitorStep recC8 ProbeResult.accessDenied).record ≠ recC8 ∧
    (monitorStep recC8 ProbeResult.accessDenied).record.status =
      "Access Denied" ∧
    recC8.status = "running" := by
  decide

/-- C8 (amended): on an Access-Denied probe the sweep keeps the record and
invokes no restart and no removal, but it does overwrite the status field
with "Access Denied"; every other field is unchanged.  This needs the CPU
threshold to be absent or nonnegative (a negative threshold would compare
above the zeroed metric and restart) and the memory limit to be absent or
parseable (an unparseable one raises even here). -/
theorem pynodex_C8 (info : ProcRecord) (p : Nat)
    (hpid : info.pid = some p)
    (hcpu : info.max_cpu_restart = none ∨
      ∃ l, info.max_cpu_restart = some l ∧ 0 ≤ l)
    (hmem : info.max_memory_restart = none ∨
      ∃ s, info.max_memory_restart = some s ∧
        parseMemLimit s ≠ MemLimitOutcome.valueError) :
    monitorStep info ProbeResult.accessDenied =
      ⟨{ info with status := "Access Denied" }, SweepAction.noAction⟩ := by
  have hcpuF : cpuLimitTrips info.max_cpu_restart 0 = false := by
    rcases hcpu with h0 | ⟨l, hl, hle⟩
    · rw [h0]; rfl
    · rw [hl]
      simp only [cpuLimitTrips]
      rw [decide_eq_false (not_lt.mpr hle)]
      simp
  rcases hmem with h0 | ⟨s, hsEq, hsOk⟩
  · simp only [monitorStep, hpid, get_process_info_daemon, h0, hcpuF,
      Bool.false_eq_true, if_false]
  · by_cases hse : s = ""
    · simp only [monitorStep, hpid, get_process_info_daemon, hsEq, hcpuF,
        Bool.false_eq_true, if_false, if_pos hse]
    · cases hps : parseMemLimit s with
      | noLimit =>
        simp only [monitorStep, hpid, get_process_info_daemon, hsEq, hcpuF,
          Bool.false_eq_true, if_false, if_neg hse, hps]
      | valueError => exact absurd hps hsOk
      | limitMB m =>
        simp only [monitorStep, hpid, get_process_info_daemon, hsEq, hcpuF,
          Bool.false_eq_true, if_false, if_neg hse, hps,
          if_neg (fun hand : 0 < m ∧ (0:ℚ) > m =>
            absurd hand.2 (not_lt.mpr (le_of_lt hand.1)))]

/-- C8 witness: a concrete record with a 50 percent CPU ceiling and a
"200MB" memory limit, probed as access-denied. -/
theorem pynodex_C8_witness :
    monitorStep recC8w ProbeResult.accessDenied =
      ⟨{ recC8w with status := "Access Denied" }, SweepAction.noAction⟩ :=
  pynodex_C8 recC8w 3 rfl
    (Or.inr ⟨50, rfl, by norm_num⟩)
    (Or.inr ⟨"200MB", rfl, by
      rw [show parseMemLimit "200MB" = MemLimitOutcome.limitMB
        (1 * decValue ['2', '0', '0'] [] * (10:ℚ) ^ (0:ℤ)) from rfl]
      simp⟩)

/-! ## Claim C9 -/

/-- C9: the claim says clear-all purges and recreates the log directory,
leaving it empty but present after two executions.  The registry is indeed
emptied and the referenced log files deleted, and the second run succeeds
on the empty state; but daemon.py never imports `shutil`, so the purge step
raises `NameError` (swallowed at daemon.py 562-563) on both runs and a
stale file in the log directory survives them — the directory is present
but not empty.  (The unsupervised path has the dual bug: core.py 564 calls
the undefined `stop_process`, so `clear all` there stops nothing.) -/
theorem pynodex_C9_clear_all :
    (daemonClearAll stC9 (fun _ => StopOsBehavior.exitsOnTerminate)).state.registry
        = [] ∧
    (daemonClearAll stC9 (fun _ => StopOsBehavior.exitsOnTerminate)).clearedCount
        = 1 ∧
    (daemonClearAll stC9 (fun _ => StopOsBehavior.exitsOnTerminate)).purgeRaised
        = true ∧
    ("<log-dir>/a_stdout.log" ∈
      (daemonClearAll stC9
        (fun _ => StopOsBehavior.exitsOnTerminate)).state.files) = False ∧
    "<log-dir>/stale.log" ∈
      (daemonClearAll stC9
        (fun _ => StopOsBehavior.exitsOnTerminate)).state.files ∧
    (daemonClearAll
        (daemonClearAll stC9 (fun _ => StopOsBehavior.exitsOnTerminate)).state
        (fun _ => StopOsBehavior.exitsOnTerminate)).state.registry = [] ∧
    (daemonClearAll
        (daemonClearAll stC9 (fun _ => StopOsBehavior.exitsOnTerminate)).state
        (fun _ => StopOsBehavior.exitsOnTerminate)).purgeRaised = true ∧
    (daemonClearAll
        (daemonClearAll stC9 (fun _ => StopOsBehavior.exitsOnTerminate)).state
        (fun _ => StopOsBehavior.exitsOnTerminate)).state.logDirExists = true ∧
    "<log-dir>/stale.log" ∈
      (daemonClearAll
        (daemonClearAll stC9 (fun _ => StopOsBehavior.exitsOnTerminate)).state
        (fun _ => StopOsBehavior.exitsOnTerminate)).state.files := by
  decide

end Pynodex
